import Mathlib

/-!
# linode-exporter: the transfer collector and its registration

A shallow embedding of `collector/transfer.go` (`NewTransferCollector`,
`TransferCollector.Collect`, `TransferCollector.Describe`) and of the
registration block of `main.go`.

Modelling conventions.

* Go `int` is the 64-bit two's-complement integer: values are `Int`, and every
  arithmetic operation of the source is followed by `wrapInt`.
* A `float64` that results from converting an `int` is always an integer; it is
  represented by its exact value (an `Int`), and `float64OfInt` performs the
  IEEE-754 round-to-nearest-even that the conversion `float64(x)` performs.
* Go strings coming out of the JSON decoder of the API client are valid UTF-8,
  so they are Lean `String`s.
* The upstream client is stateful: every call takes the upstream state and
  returns the next one, so that two calls with the same argument may answer
  differently.
* A run of a method is recorded as the ordered list of its observable events
  (log lines, upstream calls, channel sends); the receiving end of the channel
  is assumed to be read by the registry, so a send never blocks forever.
-/

namespace LinodeExporter

/-! ## Go primitives -/

/-- Two's-complement wrap-around of a mathematical integer into the range of Go's
64-bit `int`. -/
def wrapInt (x : Int) : Int := (x + 2 ^ 63) % 2 ^ 64 - 2 ^ 63

/-- Go `a * b` on `int` operands. -/
def mulInt (a b : Int) : Int := wrapInt (a * b)

/-- The number of bits by which `a` exceeds 53 significant bits (`fuel` bounds the
number of halvings; `fuel = a` always suffices). -/
def excessBits : Nat → Nat → Nat
  | 0, _ => 0
  | fuel + 1, a => if a < 2 ^ 53 then 0 else excessBits fuel (a / 2) + 1

/-- Go `float64(n)` for an `int` operand, as the exact value of the resulting
float: `n` itself when it has at most 53 significant bits, otherwise `n` rounded
to 53 significant bits, ties to even. -/
def float64OfInt (n : Int) : Int :=
  let a := n.natAbs
  let e := excessBits a a
  if e = 0 then n
  else
    let q := a / 2 ^ e
    let r := a % 2 ^ e
    let half := 2 ^ (e - 1)
    let q1 := if half < r ∨ (r = half ∧ q % 2 = 1) then q + 1 else q
    Int.sign n * ((q1 * 2 ^ e : Nat) : Int)

/-- Go `strconv.Itoa`: the decimal representation, with a leading minus sign for
negative numbers. -/
def Itoa (i : Int) : String :=
  if i < 0 then "-" ++ Nat.repr i.natAbs else Nat.repr i.natAbs

/-! ## The API client (package linodego) -/

/-- A Go `error`, reduced to its message. -/
abbrev Error := String

/-- The fields of `linodego.Instance` that the collector reads. -/
structure Instance where
  ID : Int
  Label : String
  Region : String
deriving DecidableEq

/-- The type `linodego.InstanceTransfer`. -/
structure InstanceTransfer where
  Used : Int
  Quota : Int
  Billable : Int
deriving DecidableEq

/-- The two operations of `linodego.Client` that the collector calls, over an
upstream state `σ`. -/
structure Client (σ : Type) where
  ListInstances : σ → Except Error (List Instance) × σ
  GetInstanceTransfer : σ → Int → Except Error InstanceTransfer × σ

/-! ## The metrics library (package prometheus) -/

/-- The type `prometheus.Desc`: name, help text, label names, constant labels. -/
structure Desc where
  fqName : String
  help : String
  variableLabels : List String
  constLabels : List (String × String)
deriving DecidableEq

/-- The type `prometheus.ValueType`. -/
inductive ValueType where
  | CounterValue
  | GaugeValue
  | UntypedValue
deriving DecidableEq

/-- A constant metric: descriptor, kind, value and the label pairs, kept in the
order of the descriptor's label names. -/
structure Metric where
  desc : Desc
  valType : ValueType
  val : Int
  labelPairs : List (String × String)
deriving DecidableEq

/-- The function `prometheus.BuildFQName`. -/
def BuildFQName (namespaceName subsystem name : String) : String :=
  if name = "" then ""
  else if namespaceName ≠ "" ∧ subsystem ≠ "" then
    namespaceName ++ "_" ++ subsystem ++ "_" ++ name
  else if namespaceName ≠ "" then namespaceName ++ "_" ++ name
  else if subsystem ≠ "" then subsystem ++ "_" ++ name
  else name

/-- The function `prometheus.NewDesc`. -/
def NewDesc (fqName help : String) (variableLabels : List String)
    (constLabels : List (String × String)) : Desc :=
  { fqName := fqName, help := help, variableLabels := variableLabels,
    constLabels := constLabels }

/-- The function `prometheus.NewConstMetric`, whose error `MustNewConstMetric` turns
into a panic: it fails when the number of label values differs from the number of
label names of the descriptor. Its two other causes of failure are outside this
model: a descriptor that `NewDesc` recorded as invalid (which would already make
`MustRegister` panic at start-up) and a label value that is not valid UTF-8 (which
a Lean `String` cannot be). -/
def NewConstMetric (desc : Desc) (valueType : ValueType) (value : Int)
    (labelValues : List String) : Except Error Metric :=
  if labelValues.length ≠ desc.variableLabels.length then
    .error "inconsistent label cardinality"
  else
    .ok { desc := desc, valType := valueType, val := value,
          labelPairs := desc.variableLabels.zip labelValues }

/-! ## Observable events of a run -/

/-- One observable step of a method of the collector. -/
inductive Event where
  | log (msg : String)
  | callListInstances
  | callGetInstanceTransfer (linodeID : Int)
  | sendMetric (m : Metric)
  | sendDesc (d : Desc)
deriving DecidableEq

/-! ## The file collector/transfer.go -/

/-- The type `TransferCollector`. -/
structure TransferCollector (σ : Type) where
  client : Client σ
  UsedBytes : Desc
  QuotaBytes : Desc
  BillableBytes : Desc

/-- What a method call on a `*TransferCollector` leaves behind: the events in
order, whether it ended in a Go panic instead of returning, the upstream state
and the receiver after the call. -/
structure Run (σ : Type) where
  events : List Event
  panicked : Bool
  upstream : σ
  receiver : TransferCollector σ

/-- The function `NewTransferCollector`; the package constant `namespace` is a
parameter, and the log line of the function is left out. -/
def NewTransferCollector {σ : Type} (namespaceName : String) (client : Client σ) :
    TransferCollector σ :=
  let subsystem := "transfer"
  { client := client
    UsedBytes := NewDesc (BuildFQName namespaceName subsystem "used_bytes")
      "Total transfer used in current billing period"
      ["linode_id", "label", "region"] []
    QuotaBytes := NewDesc (BuildFQName namespaceName subsystem "quota_bytes")
      "Monthly transfer quota"
      ["linode_id", "label", "region"] []
    BillableBytes := NewDesc (BuildFQName namespaceName subsystem "billable_bytes")
      "Transfer that exceeds quota (billable)"
      ["linode_id", "label", "region"] [] }

/-- The slice `labelValues` built in the loop body of `Collect`. -/
def labelValues (inst : Instance) : List String :=
  [Itoa inst.ID, inst.Label, inst.Region]

/-- One iteration of the `for ... range instances` loop of `Collect`. -/
def collectInstance {σ : Type} (c : TransferCollector σ) (inst : Instance) (s : σ) :
    Run σ :=
  let ev0 := [Event.log ("[TransferCollector:Collect] Linode ID (" ++ Itoa inst.ID ++ ")"),
    Event.callGetInstanceTransfer inst.ID]
  match c.client.GetInstanceTransfer s inst.ID with
  | (.error err, s1) =>
    { events := ev0 ++ [Event.log err], panicked := false, upstream := s1, receiver := c }
  | (.ok transfer, s1) =>
    let usedBytes := float64OfInt transfer.Used
    let quotaBytes := float64OfInt (mulInt (mulInt (mulInt transfer.Quota 1024) 1024) 1024)
    let billableBytes := float64OfInt transfer.Billable
    match NewConstMetric c.UsedBytes .GaugeValue usedBytes (labelValues inst) with
    | .error _ => { events := ev0, panicked := true, upstream := s1, receiver := c }
    | .ok m1 =>
      match NewConstMetric c.QuotaBytes .GaugeValue quotaBytes (labelValues inst) with
      | .error _ =>
        { events := ev0 ++ [Event.sendMetric m1], panicked := true, upstream := s1,
          receiver := c }
      | .ok m2 =>
        match NewConstMetric c.BillableBytes .GaugeValue billableBytes (labelValues inst) with
        | .error _ =>
          { events := ev0 ++ [Event.sendMetric m1, Event.sendMetric m2], panicked := true,
            upstream := s1, receiver := c }
        | .ok m3 =>
          { events := ev0 ++ [Event.sendMetric m1, Event.sendMetric m2, Event.sendMetric m3],
            panicked := false, upstream := s1, receiver := c }

/-- The `for ... range instances` loop of `Collect`: iterations in list order,
stopped by a panic. -/
def collectLoop {σ : Type} (c : TransferCollector σ) : List Instance → σ → Run σ
  | [], s => { events := [], panicked := false, upstream := s, receiver := c }
  | inst :: rest, s =>
    let r := collectInstance c inst s
    if r.panicked then r
    else
      let r2 := collectLoop r.receiver rest r.upstream
      { r2 with events := r.events ++ r2.events }

/-- The method `TransferCollector.Collect`. -/
def Collect {σ : Type} (c : TransferCollector σ) (s : σ) : Run σ :=
  let ev0 := [Event.log "[TransferCollector:Collect] Entered", Event.callListInstances]
  match c.client.ListInstances s with
  | (.error err, s1) =>
    { events := ev0 ++ [Event.log err], panicked := false, upstream := s1, receiver := c }
  | (.ok instances, s1) =>
    let ev1 := ev0 ++
      [Event.log ("[TransferCollector:Collect] len(instances)=" ++ Itoa instances.length)]
    let r := collectLoop c instances s1
    if r.panicked then { r with events := ev1 ++ r.events }
    else
      { r with events := ev1 ++ r.events ++ [Event.log "[TransferCollector:Collect] Completes"] }

/-- The method `TransferCollector.Describe`. -/
def Describe {σ : Type} (c : TransferCollector σ) (s : σ) : Run σ :=
  { events := [Event.log "[TransferCollector:Describe] Entered",
      Event.sendDesc c.UsedBytes, Event.sendDesc c.QuotaBytes, Event.sendDesc c.BillableBytes,
      Event.log "[TransferCollector:Describe] Completes"],
    panicked := false, upstream := s, receiver := c }

/-! ## Projections of an event list -/

/-- The metrics sent on the channel, in order. -/
def samples (evs : List Event) : List Metric :=
  evs.filterMap fun e => match e with
    | .sendMetric m => some m
    | _ => none

/-- The descriptors sent on the channel, in order. -/
def descriptors (evs : List Event) : List Desc :=
  evs.filterMap fun e => match e with
    | .sendDesc d => some d
    | _ => none

/-- The upstream calls, in order. -/
def upstreamCalls (evs : List Event) : List Event :=
  evs.filter fun e => match e with
    | .callListInstances => true
    | .callGetInstanceTransfer _ => true
    | _ => false

/-! ## What the upstream answers during one Collect, and the samples expected from it -/

/-- The answers of `GetInstanceTransfer` when it is called once per instance, in
list order, starting from upstream state `s`. -/
def transferResponses {σ : Type} (cl : Client σ) :
    List Instance → σ → List (Except Error InstanceTransfer)
  | [], _ => []
  | inst :: rest, s =>
    (cl.GetInstanceTransfer s inst.ID).1 ::
      transferResponses cl rest (cl.GetInstanceTransfer s inst.ID).2

/-- The successful part of an answer, paired with its instance. -/
def fetchedPair : Instance × Except Error InstanceTransfer → Option (Instance × InstanceTransfer)
  | (inst, .ok t) => some (inst, t)
  | (_, .error _) => none

/-- The instances whose transfer call succeeded, each with the detail returned,
in list order. -/
def fetched {σ : Type} (cl : Client σ) (instances : List Instance) (s : σ) :
    List (Instance × InstanceTransfer) :=
  (instances.zip (transferResponses cl instances s)).filterMap fetchedPair

/-- The used sample of an instance with transfer detail `t`. -/
def usedSample {σ : Type} (c : TransferCollector σ) (inst : Instance) (t : InstanceTransfer) :
    Metric :=
  { desc := c.UsedBytes, valType := .GaugeValue, val := float64OfInt t.Used,
    labelPairs := c.UsedBytes.variableLabels.zip [Itoa inst.ID, inst.Label, inst.Region] }

/-- The quota sample of an instance with transfer detail `t`. -/
def quotaSample {σ : Type} (c : TransferCollector σ) (inst : Instance) (t : InstanceTransfer) :
    Metric :=
  { desc := c.QuotaBytes, valType := .GaugeValue,
    val := float64OfInt (mulInt (mulInt (mulInt t.Quota 1024) 1024) 1024),
    labelPairs := c.QuotaBytes.variableLabels.zip [Itoa inst.ID, inst.Label, inst.Region] }

/-- The billable sample of an instance with transfer detail `t`. -/
def billableSample {σ : Type} (c : TransferCollector σ) (inst : Instance)
    (t : InstanceTransfer) : Metric :=
  { desc := c.BillableBytes, valType := .GaugeValue, val := float64OfInt t.Billable,
    labelPairs := c.BillableBytes.variableLabels.zip [Itoa inst.ID, inst.Label, inst.Region] }

/-- The triple of samples of one fetched instance. -/
def instanceSamples {σ : Type} (c : TransferCollector σ) (p : Instance × InstanceTransfer) :
    List Metric :=
  [usedSample c p.1 p.2, quotaSample c p.1 p.2, billableSample c p.1 p.2]

/-- Every descriptor of the collector has three label names. -/
def ThreeLabels {σ : Type} (c : TransferCollector σ) : Prop :=
  c.UsedBytes.variableLabels.length = 3 ∧ c.QuotaBytes.variableLabels.length = 3 ∧
    c.BillableBytes.variableLabels.length = 3

/-! ## Reading a decimal representation back -/

/-- The number read back from a list of decimal digit characters. -/
def decimalValue (ds : List Char) : Nat :=
  ds.foldl (fun acc ch => acc * 10 + (ch.toNat - 48)) 0

/-- The integer read back from a decimal representation with an optional sign. -/
def parseDecimal (str : String) : Int :=
  match str.data with
  | '-' :: ds => -(decimalValue ds : Int)
  | ds => (decimalValue ds : Int)

/-! ## Histories of registry calls -/

/-- A call that the registry makes on a registered collector. -/
inductive Call where
  | collect
  | describe
deriving DecidableEq

/-- The collector and the upstream state after a sequence of registry calls. -/
def runCalls {σ : Type} : List Call → TransferCollector σ → σ → TransferCollector σ × σ
  | [], c, s => (c, s)
  | .collect :: rest, c, s => runCalls rest (Collect c s).receiver (Collect c s).upstream
  | .describe :: rest, c, s => runCalls rest (Describe c s).receiver (Describe c s).upstream

/-! ## The registration block of main.go -/

/-- The constructors of the package `collector`: the five that `main.go` calls and
the one of `transfer.go`. -/
inductive Constructor where
  | NewAccountCollector
  | NewExporterCollector
  | NewInstanceCollector
  | NewNodeBalancerCollector
  | NewTicketCollector
  | NewTransferCollector
deriving DecidableEq

/-- The registry of `prometheus.NewRegistry`: no collector yet. -/
def NewRegistry : List Constructor := []

/-- The method `Registry.MustRegister` for one collector: the collector is added
to the registered ones. -/
def MustRegister (registry : List Constructor) (c : Constructor) : List Constructor :=
  registry ++ [c]

/-- The registry after the registration block of `main` (lines 52 to 57), with each
collector named by the constructor that built it. -/
def mainRegistered : List Constructor :=
  let registry := NewRegistry
  let registry := MustRegister registry .NewAccountCollector
  let registry := MustRegister registry .NewExporterCollector
  let registry := MustRegister registry .NewInstanceCollector
  let registry := MustRegister registry .NewNodeBalancerCollector
  let registry := MustRegister registry .NewTicketCollector
  registry

/-! ## Example clients -/

/-- The two instances of the scenario. -/
def scenarioInstances : List Instance :=
  [⟨100, "web-1", "us-east"⟩, ⟨101, "web-2", "us-east"⟩]

/-- A client that lists two instances and answers the transfer of each. -/
def scenarioClient : Client Unit where
  ListInstances := fun s =>
    (.ok scenarioInstances, s)
  GetInstanceTransfer := fun s id =>
    if id = 100 then (.ok ⟨5000000000, 2, 0⟩, s)
    else if id = 101 then (.ok ⟨3000000000000, 4, 1000000000⟩, s)
    else (.error "not found", s)

/-- A client whose list call fails. -/
def listFailureClient : Client Unit where
  ListInstances := fun s => (.error "list failed", s)
  GetInstanceTransfer := fun s _ => (.ok ⟨1, 1, 1⟩, s)

/-- A client over a call counter: it lists three instances, and its second transfer
call fails whatever the identifier asked for. -/
def flakyClient : Client Nat where
  ListInstances := fun n =>
    (.ok [⟨7, "a", "eu-west"⟩, ⟨8, "b", "eu-west"⟩, ⟨9, "c", "eu-west"⟩], n)
  GetInstanceTransfer := fun n id =>
    if n = 1 then (.error "timeout", n + 1) else (.ok ⟨id, 1, 0⟩, n + 1)

/-- A list in which the same instance appears twice. -/
def duplicateInstances : List Instance :=
  [⟨5, "dup", "us-east"⟩, ⟨5, "dup", "us-east"⟩]

/-- A client over a call counter: it lists the same instance twice, and only its
first transfer call fails. -/
def duplicateClient : Client Nat where
  ListInstances := fun n => (.ok duplicateInstances, n)
  GetInstanceTransfer := fun n id =>
    if n = 0 then (.error "timeout", n + 1) else (.ok ⟨id, 1, 0⟩, n + 1)

/-- A client with one instance whose quota is `2 ^ 33` gibibytes. -/
def hugeQuotaClient : Client Unit where
  ListInstances := fun s => (.ok [⟨1, "big", "us-east"⟩], s)
  GetInstanceTransfer := fun s _ => (.ok ⟨0, 8589934592, 0⟩, s)

/-! ## Lemmas on the event projections -/

theorem samples_append (a b : List Event) : samples (a ++ b) = samples a ++ samples b := by
  simp [samples, List.filterMap_append]

theorem upstreamCalls_append (a b : List Event) :
    upstreamCalls (a ++ b) = upstreamCalls a ++ upstreamCalls b := by
  simp [upstreamCalls, List.filter_append]

theorem samples_sendMetric (ms : List Metric) : samples (ms.map Event.sendMetric) = ms := by
  induction ms with
  | nil => rfl
  | cons m rest ih =>
    simp only [samples] at ih
    simp [samples, ih]

theorem upstreamCalls_sendMetric (ms : List Metric) :
    upstreamCalls (ms.map Event.sendMetric) = [] := by
  induction ms with
  | nil => rfl
  | cons m rest ih =>
    simp only [upstreamCalls] at ih
    simp [upstreamCalls, ih]

/-! ## The loop body, the loop and the whole of Collect -/

theorem newTransferCollector_threeLabels {σ : Type} (namespaceName : String) (client : Client σ) :
    ThreeLabels (NewTransferCollector namespaceName client) := by
  simp [ThreeLabels, NewTransferCollector, NewDesc]

theorem collectInstance_ok {σ : Type} (c : TransferCollector σ) (hc : ThreeLabels c)
    (inst : Instance) (s s1 : σ) (t : InstanceTransfer)
    (h : c.client.GetInstanceTransfer s inst.ID = (.ok t, s1)) :
    collectInstance c inst s =
      { events := [Event.log ("[TransferCollector:Collect] Linode ID (" ++ Itoa inst.ID ++ ")"),
          Event.callGetInstanceTransfer inst.ID] ++ (instanceSamples c (inst, t)).map Event.sendMetric,
        panicked := false, upstream := s1, receiver := c } := by
  obtain ⟨h1, h2, h3⟩ := hc
  simp [collectInstance, h, NewConstMetric, labelValues, h1, h2, h3, instanceSamples,
    usedSample, quotaSample, billableSample]

theorem collectInstance_error {σ : Type} (c : TransferCollector σ)
    (inst : Instance) (s s1 : σ) (err : Error)
    (h : c.client.GetInstanceTransfer s inst.ID = (.error err, s1)) :
    collectInstance c inst s =
      { events := [Event.log ("[TransferCollector:Collect] Linode ID (" ++ Itoa inst.ID ++ ")"),
          Event.callGetInstanceTransfer inst.ID, Event.log err],
        panicked := false, upstream := s1, receiver := c } := by
  simp [collectInstance, h]

theorem fetched_nil {σ : Type} (cl : Client σ) (s : σ) : fetched cl [] s = [] := rfl

theorem fetched_cons_ok {σ : Type} (cl : Client σ) (inst : Instance) (rest : List Instance)
    (s s1 : σ) (t : InstanceTransfer) (h : cl.GetInstanceTransfer s inst.ID = (.ok t, s1)) :
    fetched cl (inst :: rest) s = (inst, t) :: fetched cl rest s1 := by
  simp [fetched, transferResponses, h, fetchedPair]

theorem fetched_cons_error {σ : Type} (cl : Client σ) (inst : Instance) (rest : List Instance)
    (s s1 : σ) (err : Error) (h : cl.GetInstanceTransfer s inst.ID = (.error err, s1)) :
    fetched cl (inst :: rest) s = fetched cl rest s1 := by
  simp [fetched, transferResponses, h, fetchedPair]

/-- The loop never panics, leaves the receiver alone, sends the triples of the
fetched instances in order and calls `GetInstanceTransfer` once per instance. -/
theorem collectLoop_spec {σ : Type} (c : TransferCollector σ) (hc : ThreeLabels c) :
    ∀ (instances : List Instance) (s : σ),
      (collectLoop c instances s).panicked = false ∧
      (collectLoop c instances s).receiver = c ∧
      samples (collectLoop c instances s).events =
        (fetched c.client instances s).flatMap (instanceSamples c) ∧
      upstreamCalls (collectLoop c instances s).events =
        instances.map fun inst => Event.callGetInstanceTransfer inst.ID := by
  intro instances
  induction instances with
  | nil => intro s; simp [collectLoop, samples, upstreamCalls, fetched_nil]
  | cons inst rest ih =>
    intro s
    rcases h : c.client.GetInstanceTransfer s inst.ID with ⟨r, s1⟩
    obtain ⟨ih1, ih2, ih3, ih4⟩ := ih s1
    cases r with
    | error err =>
      have hi := collectInstance_error c inst s s1 err h
      simp only [collectLoop, hi, fetched_cons_error c.client inst rest s s1 err h]
      refine ⟨by simpa using ih1, by simpa using ih2, ?_, ?_⟩
      · simp only [Bool.false_eq_true, if_false, samples_append, ih3]
        simp [samples]
      · simp only [Bool.false_eq_true, if_false, upstreamCalls_append, ih4]
        simp [upstreamCalls]
    | ok t =>
      have hi := collectInstance_ok c hc inst s s1 t h
      simp only [collectLoop, hi, fetched_cons_ok c.client inst rest s s1 t h]
      refine ⟨by simpa using ih1, by simpa using ih2, ?_, ?_⟩
      · simp only [Bool.false_eq_true, if_false, samples_append, ih3, samples_sendMetric,
          List.flatMap_cons]
        simp [samples]
      · simp only [Bool.false_eq_true, if_false, upstreamCalls_append, ih4,
          upstreamCalls_sendMetric]
        simp [upstreamCalls]

theorem collect_listOk {σ : Type} (c : TransferCollector σ) (hc : ThreeLabels c) (s s1 : σ)
    (instances : List Instance) (hlist : c.client.ListInstances s = (.ok instances, s1)) :
    (Collect c s).panicked = false ∧ (Collect c s).receiver = c ∧
      samples (Collect c s).events =
        (fetched c.client instances s1).flatMap (instanceSamples c) ∧
      upstreamCalls (Collect c s).events =
        Event.callListInstances ::
          instances.map fun inst => Event.callGetInstanceTransfer inst.ID := by
  obtain ⟨h1, h2, h3, h4⟩ := collectLoop_spec c hc instances s1
  simp only [Collect, hlist, h1, Bool.false_eq_true, if_false, samples_append,
    upstreamCalls_append, h3, h4]
  refine ⟨trivial, h2, ?_, ?_⟩
  · simp [samples]
  · simp [upstreamCalls]

theorem collect_listError {σ : Type} (c : TransferCollector σ) (s s1 : σ) (err : Error)
    (hlist : c.client.ListInstances s = (.error err, s1)) :
    Collect c s =
      { events := [Event.log "[TransferCollector:Collect] Entered", Event.callListInstances,
          Event.log err],
        panicked := false, upstream := s1, receiver := c } := by
  simp [Collect, hlist]

theorem collect_receiver {σ : Type} (c : TransferCollector σ) (hc : ThreeLabels c) (s : σ) :
    (Collect c s).receiver = c := by
  rcases h : c.client.ListInstances s with ⟨r, s1⟩
  cases r with
  | error err => rw [collect_listError c s s1 err h]
  | ok instances => exact (collect_listOk c hc s s1 instances h).2.1

theorem collect_panicked {σ : Type} (c : TransferCollector σ) (hc : ThreeLabels c) (s : σ) :
    (Collect c s).panicked = false := by
  rcases h : c.client.ListInstances s with ⟨r, s1⟩
  cases r with
  | error err => rw [collect_listError c s s1 err h]
  | ok instances => exact (collect_listOk c hc s s1 instances h).1

/-! ## Positions in a concatenation of triples -/

theorem getElem?_flatMap_three {α β : Type} (f : α → List β) (hf : ∀ a, (f a).length = 3) :
    ∀ (l : List α) (i j : Nat), j < 3 →
      (l.flatMap f)[3 * i + j]? = (l[i]?).bind fun a => (f a)[j]? := by
  intro l
  induction l with
  | nil => intro i j _; simp
  | cons a rest ih =>
    intro i j hj
    cases i with
    | zero =>
      simp only [List.flatMap_cons, Nat.mul_zero, Nat.zero_add, List.getElem?_cons_zero,
        Option.some_bind]
      exact List.getElem?_append_left (by rw [hf a]; exact hj)
    | succ i =>
      have hlen : (f a).length ≤ 3 * (i + 1) + j := by rw [hf a]; omega
      simp only [List.flatMap_cons, List.getElem?_cons_succ]
      rw [List.getElem?_append_right hlen, hf a]
      have : 3 * (i + 1) + j - 3 = 3 * i + j := by omega
      rw [this]
      exact ih i j hj

theorem length_flatMap_three {α β : Type} (f : α → List β) (hf : ∀ a, (f a).length = 3) :
    ∀ l : List α, (l.flatMap f).length = 3 * l.length := by
  intro l
  induction l with
  | nil => simp
  | cons a rest ih => simp only [List.flatMap_cons, List.length_append, hf a, ih,
      List.length_cons]; omega

/-! ## Go integer arithmetic and conversion to float64 -/

theorem wrapInt_of_inRange (x : Int) (h1 : -2 ^ 63 ≤ x) (h2 : x < 2 ^ 63) : wrapInt x = x := by
  unfold wrapInt
  norm_num at h1 h2 ⊢
  omega

theorem mulInt_gib (q : Int) (h1 : -2 ^ 33 ≤ q) (h2 : q < 2 ^ 33) :
    mulInt (mulInt (mulInt q 1024) 1024) 1024 = q * 1024 ^ 3 := by
  norm_num at h1 h2
  unfold mulInt
  rw [wrapInt_of_inRange (q * 1024) (by norm_num; omega) (by norm_num; omega)]
  rw [wrapInt_of_inRange (q * 1024 * 1024) (by norm_num; omega) (by norm_num; omega)]
  rw [wrapInt_of_inRange (q * 1024 * 1024 * 1024) (by norm_num; omega) (by norm_num; omega)]
  ring

theorem excessBits_le (fuel : Nat) : ∀ (a k : Nat), a < 2 ^ (53 + k) → excessBits fuel a ≤ k := by
  induction fuel with
  | zero => intro a k _; simp [excessBits]
  | succ fuel ih =>
    intro a k h
    unfold excessBits
    split
    · exact Nat.zero_le _
    · rename_i hge
      cases k with
      | zero => exact absurd h hge
      | succ k =>
        have : a / 2 < 2 ^ (53 + k) := by
          rw [Nat.div_lt_iff_lt_mul (by decide)]
          have : 2 ^ (53 + (k + 1)) = 2 ^ (53 + k) * 2 := by
            rw [← Nat.add_assoc, Nat.pow_succ]
          omega
        exact Nat.succ_le_succ (ih (a / 2) k this)

theorem excessBits_eq_zero (fuel a : Nat) (h : a < 2 ^ 53) : excessBits fuel a = 0 := by
  cases fuel with
  | zero => rfl
  | succ fuel => simp only [excessBits, if_pos h]

/-- The conversion is exact on integers of at most 53 significant bits. -/
theorem float64OfInt_small (n : Int) (h : n.natAbs < 2 ^ 53) : float64OfInt n = n := by
  simp [float64OfInt, excessBits_eq_zero _ _ h]

/-- The conversion is exact on the multiples of `2 ^ 11` within the `int` range. -/
theorem float64OfInt_multiple (n : Int) (hn : n.natAbs < 2 ^ 64) (hd : 2 ^ 11 ∣ n.natAbs) :
    float64OfInt n = n := by
  have he : excessBits n.natAbs n.natAbs ≤ 11 := excessBits_le _ _ 11 hn
  unfold float64OfInt
  simp only
  split
  · rfl
  · rename_i hne
    have hdvd : 2 ^ excessBits n.natAbs n.natAbs ∣ n.natAbs :=
      Nat.dvd_trans (Nat.pow_dvd_pow 2 he) hd
    have hr : n.natAbs % 2 ^ excessBits n.natAbs n.natAbs = 0 := Nat.mod_eq_zero_of_dvd hdvd
    have hhalf : 0 < 2 ^ (excessBits n.natAbs n.natAbs - 1) := Nat.pow_pos (by decide)
    have hcond : ¬ (2 ^ (excessBits n.natAbs n.natAbs - 1) <
          n.natAbs % 2 ^ excessBits n.natAbs n.natAbs ∨
        (n.natAbs % 2 ^ excessBits n.natAbs n.natAbs =
            2 ^ (excessBits n.natAbs n.natAbs - 1) ∧
          n.natAbs / 2 ^ excessBits n.natAbs n.natAbs % 2 = 1)) := by
      rw [hr]; omega
    rw [if_neg hcond, Nat.div_mul_cancel hdvd]
    exact Int.sign_mul_natAbs n

theorem float64OfInt_gib (q : Int) (h1 : -2 ^ 33 ≤ q) (h2 : q < 2 ^ 33) :
    float64OfInt (q * 1024 ^ 3) = q * 1024 ^ 3 := by
  norm_num at h1 h2
  apply float64OfInt_multiple
  · have : (q * 1024 ^ 3).natAbs = q.natAbs * 1073741824 := by
      rw [Int.natAbs_mul]; norm_num
    rw [this]; norm_num; omega
  · have : (q * 1024 ^ 3).natAbs = q.natAbs * 1073741824 := by
      rw [Int.natAbs_mul]; norm_num
    rw [this]
    exact Dvd.dvd.mul_left (by norm_num) _

/-! ## The function strconv.Itoa is injective -/

theorem digitChar_toNat (k : Nat) (h : k < 10) : (Nat.digitChar k).toNat - 48 = k := by
  interval_cases k <;> rfl

theorem digitChar_ne_minus (k : Nat) (h : k < 10) : Nat.digitChar k ≠ '-' := by
  interval_cases k <;> decide

theorem foldl_toDigitsCore (fuel : Nat) : ∀ (n : Nat) (ds : List Char), n < fuel →
    (Nat.toDigitsCore 10 fuel n ds).foldl (fun acc ch => acc * 10 + (ch.toNat - 48)) 0 =
      ds.foldl (fun acc ch => acc * 10 + (ch.toNat - 48)) n := by
  induction fuel with
  | zero => intro n ds h; omega
  | succ fuel ih =>
    intro n ds h
    have hd : (Nat.digitChar (n % 10)).toNat - 48 = n % 10 :=
      digitChar_toNat _ (Nat.mod_lt _ (by decide))
    unfold Nat.toDigitsCore
    simp only
    split
    · rename_i h0
      simp only [List.foldl_cons, hd]
      have : 0 * 10 + n % 10 = n := by omega
      rw [this]
    · rename_i h0
      rw [ih (n / 10) _ (by omega)]
      simp only [List.foldl_cons, hd]
      have : n / 10 * 10 + n % 10 = n := by omega
      rw [this]

theorem head_toDigitsCore (fuel : Nat) : ∀ (n : Nat) (ds : List Char),
    ds.head? ≠ some '-' → (Nat.toDigitsCore 10 fuel n ds).head? ≠ some '-' := by
  induction fuel with
  | zero => intro n ds h; simpa [Nat.toDigitsCore] using h
  | succ fuel ih =>
    intro n ds h
    have hd : Nat.digitChar (n % 10) ≠ '-' := digitChar_ne_minus _ (Nat.mod_lt _ (by decide))
    unfold Nat.toDigitsCore
    simp only
    split
    · simpa using hd
    · exact ih _ _ (by simpa using hd)

theorem decimalValue_toDigits (n : Nat) : decimalValue (Nat.toDigits 10 n) = n := by
  unfold decimalValue Nat.toDigits
  rw [foldl_toDigitsCore (n + 1) n [] (Nat.lt_succ_self n)]
  rfl

theorem parseDecimal_Itoa (i : Int) : parseDecimal (Itoa i) = i := by
  unfold Itoa
  split
  · rename_i hneg
    have : ("-" ++ Nat.repr i.natAbs).data = '-' :: Nat.toDigits 10 i.natAbs := rfl
    simp only [parseDecimal, this, decimalValue_toDigits]
    omega
  · rename_i hpos
    have hdata : (Nat.repr i.natAbs).data = Nat.toDigits 10 i.natAbs := rfl
    have hhead : (Nat.toDigits 10 i.natAbs).head? ≠ some '-' :=
      head_toDigitsCore _ _ [] (by simp)
    unfold parseDecimal
    rw [hdata]
    split
    · rename_i ds heq
      rw [heq] at hhead
      exact absurd rfl hhead
    · simp only [decimalValue_toDigits]
      omega

theorem Itoa_injective : Function.Injective Itoa := by
  intro i j h
  have := congrArg parseDecimal h
  rwa [parseDecimal_Itoa, parseDecimal_Itoa] at this

/-! ## The fetched instances under a given pattern of answers -/

theorem transferResponses_cons {σ : Type} (cl : Client σ) (inst : Instance)
    (rest : List Instance) (s s1 : σ) (r : Except Error InstanceTransfer)
    (h : cl.GetInstanceTransfer s inst.ID = (r, s1)) :
    transferResponses cl (inst :: rest) s = r :: transferResponses cl rest s1 := by
  simp [transferResponses, h]

theorem length_transferResponses {σ : Type} (cl : Client σ) :
    ∀ (instances : List Instance) (s : σ),
      (transferResponses cl instances s).length = instances.length := by
  intro instances
  induction instances with
  | nil => intro s; rfl
  | cons inst rest ih => intro s; simp [transferResponses, ih]

/-- When every call succeeds, every instance is fetched. -/
theorem fetched_of_all_ok {σ : Type} (cl : Client σ) :
    ∀ (instances : List Instance) (s : σ),
      (∀ r ∈ transferResponses cl instances s, ∃ t, r = Except.ok t) →
      (fetched cl instances s).map Prod.fst = instances ∧
      (fetched cl instances s).map (fun p => Except.ok p.2) =
        transferResponses cl instances s := by
  intro instances
  induction instances with
  | nil => intro s _; exact ⟨rfl, rfl⟩
  | cons inst rest ih =>
    intro s hall
    rcases h : cl.GetInstanceTransfer s inst.ID with ⟨r, s1⟩
    rw [transferResponses_cons cl inst rest s s1 r h] at hall ⊢
    obtain ⟨t, rfl⟩ := hall r (List.mem_cons_self _ _)
    obtain ⟨ih1, ih2⟩ := ih s1 fun r hr => hall r (List.mem_cons_of_mem _ hr)
    rw [fetched_cons_ok cl inst rest s s1 t h]
    simp [ih1, ih2]

/-- When exactly the call at position `k` fails, exactly the instance at position
`k` is missing from the fetched ones. -/
theorem fetched_of_one_error {σ : Type} (cl : Client σ) :
    ∀ (instances : List Instance) (s : σ) (k : Nat) (err : Error),
      (transferResponses cl instances s)[k]? = some (Except.error err) →
      (∀ i r, i ≠ k → (transferResponses cl instances s)[i]? = some r → ∃ t, r = Except.ok t) →
      (fetched cl instances s).map Prod.fst = instances.eraseIdx k ∧
      (fetched cl instances s).map (fun p => Except.ok p.2) =
        (transferResponses cl instances s).eraseIdx k := by
  intro instances
  induction instances with
  | nil => intro s k err hk _; simp [transferResponses] at hk
  | cons inst rest ih =>
    intro s k err hk hothers
    rcases h : cl.GetInstanceTransfer s inst.ID with ⟨r, s1⟩
    rw [transferResponses_cons cl inst rest s s1 r h] at hk hothers ⊢
    cases k with
    | zero =>
      simp only [List.getElem?_cons_zero, Option.some.injEq] at hk
      subst hk
      rw [fetched_cons_error cl inst rest s s1 err h]
      have hall : ∀ r ∈ transferResponses cl rest s1, ∃ t, r = Except.ok t := by
        intro r hr
        obtain ⟨i, hi⟩ := List.getElem?_of_mem hr
        exact hothers (i + 1) r (by omega) (by simpa using hi)
      simpa using fetched_of_all_ok cl rest s1 hall
    | succ k =>
      obtain ⟨t, rfl⟩ := hothers 0 r (by omega) (by simp)
      rw [fetched_cons_ok cl inst rest s s1 t h]
      have hk1 : (transferResponses cl rest s1)[k]? = some (Except.error err) := by
        simpa using hk
      obtain ⟨ih1, ih2⟩ := ih s1 k err hk1 fun i r hik hi =>
        hothers (i + 1) r (by omega) (by simpa using hi)
      simp [ih1, ih2]

theorem length_instanceSamples {σ : Type} (c : TransferCollector σ)
    (p : Instance × InstanceTransfer) : (instanceSamples c p).length = 3 := rfl

theorem labelPairs_of_mem_instanceSamples {σ : Type} (namespaceName : String)
    (client : Client σ) (p : Instance × InstanceTransfer) (m : Metric)
    (hm : m ∈ instanceSamples (NewTransferCollector namespaceName client) p) :
    m.labelPairs =
      [("linode_id", Itoa p.1.ID), ("label", p.1.Label), ("region", p.1.Region)] ∧
    m.desc.variableLabels = ["linode_id", "label", "region"] := by
  simp only [instanceSamples, List.mem_cons, List.mem_singleton, List.mem_nil_iff,
    or_false] at hm
  rcases hm with rfl | rfl | rfl <;>
    exact ⟨rfl, rfl⟩

theorem flatMap_filterMap {α β γ : Type} (f : α → Option β) (g : β → List γ) :
    ∀ l : List α, (l.filterMap f).flatMap g =
      l.flatMap fun a => match f a with
        | some b => g b
        | none => [] := by
  intro l
  induction l with
  | nil => rfl
  | cons a rest ih =>
    cases h : f a with
    | none => simp [List.filterMap_cons, h, ih]
    | some b => simp [List.filterMap_cons, h, ih]

theorem runCalls_collector {σ : Type} (c : TransferCollector σ) (hc : ThreeLabels c) :
    ∀ (history : List Call) (s : σ), (runCalls history c s).1 = c := by
  intro history
  induction history with
  | nil => intro s; rfl
  | cons call rest ih =>
    intro s
    cases call with
    | collect =>
      simp only [runCalls, collect_receiver c hc s]
      exact ih _
    | describe =>
      simp only [runCalls, Describe]
      exact ih _

theorem sample_at {σ : Type} (c : TransferCollector σ) (hc : ThreeLabels c) (s s1 : σ)
    (instances : List Instance) (hlist : c.client.ListInstances s = (.ok instances, s1))
    (i j : Nat) (hj : j < 3) :
    (samples (Collect c s).events)[3 * i + j]? =
      ((fetched c.client instances s1)[i]?).bind fun p => (instanceSamples c p)[j]? := by
  rw [(collect_listOk c hc s s1 instances hlist).2.2.1]
  exact getElem?_flatMap_three _ (length_instanceSamples c) _ i j hj

theorem sample_at_fetched {σ : Type} (namespaceName : String) (client : Client σ) (s s1 : σ)
    (instances : List Instance) (hlist : client.ListInstances s = (.ok instances, s1))
    (i : Nat) (p : Instance × InstanceTransfer)
    (hp : (fetched client instances s1)[i]? = some p) (j : Nat) (hj : j < 3) :
    (samples (Collect (NewTransferCollector namespaceName client) s).events)[3 * i + j]? =
      (instanceSamples (NewTransferCollector namespaceName client) p)[j]? := by
  rw [sample_at _ (newTransferCollector_threeLabels namespaceName client) s s1 instances
    hlist i j hj]
  show ((fetched client instances s1)[i]?).bind _ = _
  rw [hp]
  rfl

/-! ## The claims -/

/-- C1: when `ListInstances` returns `N` instances and every `GetInstanceTransfer`
call succeeds, `Collect` sends exactly `3 * N` samples, and the three samples at
positions `3 * i`, `3 * i + 1`, `3 * i + 2` carry the label values
`[Itoa ID, Label, Region]` of the instance at position `i`. -/
theorem collect_three_samples_per_instance {σ : Type} (namespaceName : String)
    (client : Client σ) (s s1 : σ) (instances : List Instance)
    (hlist : client.ListInstances s = (.ok instances, s1))
    (hall : ∀ r ∈ transferResponses client instances s1, ∃ t, r = Except.ok t) :
    (samples (Collect (NewTransferCollector namespaceName client) s).events).length =
        3 * instances.length ∧
      ∀ (i j : Nat) (inst : Instance), instances[i]? = some inst → j < 3 →
        ((samples (Collect (NewTransferCollector namespaceName client) s).events)[3 * i + j]?).map
            (fun m => m.labelPairs.map Prod.snd) =
          some [Itoa inst.ID, inst.Label, inst.Region] := by
  have hc := newTransferCollector_threeLabels namespaceName client
  obtain ⟨hfst, _⟩ := fetched_of_all_ok client instances s1 hall
  constructor
  · rw [(collect_listOk _ hc s s1 instances hlist).2.2.1,
      length_flatMap_three _ (length_instanceSamples _)]
    show 3 * (fetched client instances s1).length = 3 * instances.length
    rw [← congrArg List.length hfst, List.length_map]
  · intro i j inst hi hj
    have hget : ((fetched client instances s1)[i]?).map Prod.fst = some inst := by
      rw [← List.getElem?_map, hfst, hi]
    cases hp : (fetched client instances s1)[i]? with
    | none =>
      rw [hp] at hget
      cases hget
    | some p =>
      rw [hp] at hget
      simp only [Option.map_some', Option.some.injEq] at hget
      subst hget
      rw [sample_at_fetched namespaceName client s s1 instances hlist i p hp j hj]
      interval_cases j <;> rfl

/-- Witness of C1 on the two instances of the scenario. -/
theorem collect_three_samples_per_instance_witness :
    (samples (Collect (NewTransferCollector "linode" scenarioClient) ()).events).length =
        3 * scenarioInstances.length ∧
      ∀ (i j : Nat) (inst : Instance), scenarioInstances[i]? = some inst → j < 3 →
        ((samples (Collect (NewTransferCollector "linode" scenarioClient) ()).events)[3 * i + j]?).map
            (fun m => m.labelPairs.map Prod.snd) =
          some [Itoa inst.ID, inst.Label, inst.Region] :=
  collect_three_samples_per_instance "linode" scenarioClient () () scenarioInstances rfl
    (by
      intro r hr
      simp only [scenarioInstances, transferResponses, scenarioClient, List.mem_cons,
        List.mem_singleton, List.mem_nil_iff, or_false] at hr
      rcases hr with rfl | rfl
      · exact ⟨_, rfl⟩
      · exact ⟨_, rfl⟩)

/-- C2, counterexample: for the quota `2 ^ 33` the product `Quota * 1024 * 1024 * 1024`
wraps around in Go's `int`, and the quota sample is `-2 ^ 63` instead of
`2 ^ 33 * 1024 ^ 3`. -/
theorem quota_sample_wraps :
    ((samples (Collect (NewTransferCollector "linode" hugeQuotaClient) ()).events)[1]?).map
        (fun m => (m.desc.fqName, m.val)) =
      some ("linode_transfer_quota_bytes", -9223372036854775808) ∧
    ((samples (Collect (NewTransferCollector "linode" hugeQuotaClient) ()).events)[1]?).map
        (fun m => m.val) ≠ some (8589934592 * 1024 ^ 3) := by
  decide

/-- C2, amended: for a quota `Q` with `-2 ^ 33 ≤ Q < 2 ^ 33` returned for the `i`-th
fetched instance, the quota sample (the second of that instance's triple) has the
descriptor `QuotaBytes` and the value `Q * 1024 ^ 3` exactly. -/
theorem quota_sample_exact_in_range {σ : Type} (namespaceName : String) (client : Client σ)
    (s s1 : σ) (instances : List Instance)
    (hlist : client.ListInstances s = (.ok instances, s1))
    (i : Nat) (inst : Instance) (t : InstanceTransfer)
    (hfetched : (fetched client instances s1)[i]? = some (inst, t))
    (hlo : -2 ^ 33 ≤ t.Quota) (hhi : t.Quota < 2 ^ 33) :
    (samples (Collect (NewTransferCollector namespaceName client) s).events)[3 * i + 1]? =
      some { desc := (NewTransferCollector namespaceName client).QuotaBytes,
             valType := .GaugeValue,
             val := t.Quota * 1024 ^ 3,
             labelPairs := [("linode_id", Itoa inst.ID), ("label", inst.Label),
               ("region", inst.Region)] } := by
  rw [sample_at_fetched namespaceName client s s1 instances hlist i (inst, t) hfetched 1
    (by decide)]
  have hval : float64OfInt (mulInt (mulInt (mulInt t.Quota 1024) 1024) 1024) =
      t.Quota * 1024 ^ 3 := by
    rw [mulInt_gib t.Quota hlo hhi, float64OfInt_gib t.Quota hlo hhi]
  simp only [instanceSamples, quotaSample, hval]
  rfl

/-- Witness of the amended C2: the quotas 2 and 4 of the scenario give 2147483648 and
4294967296. -/
theorem quota_sample_exact_in_range_witness :
    (samples (Collect (NewTransferCollector "linode" scenarioClient) ()).events)[3 * 0 + 1]? =
      some { desc := (NewTransferCollector "linode" scenarioClient).QuotaBytes,
             valType := .GaugeValue,
             val := 2 * 1024 ^ 3,
             labelPairs := [("linode_id", Itoa 100), ("label", "web-1"),
               ("region", "us-east")] } ∧
    (samples (Collect (NewTransferCollector "linode" scenarioClient) ()).events)[3 * 1 + 1]? =
      some { desc := (NewTransferCollector "linode" scenarioClient).QuotaBytes,
             valType := .GaugeValue,
             val := 4 * 1024 ^ 3,
             labelPairs := [("linode_id", Itoa 101), ("label", "web-2"),
               ("region", "us-east")] } ∧
    (2 * 1024 ^ 3 : Int) = 2147483648 ∧ (4 * 1024 ^ 3 : Int) = 4294967296 :=
  ⟨quota_sample_exact_in_range "linode" scenarioClient () () scenarioInstances rfl 0
      ⟨100, "web-1", "us-east"⟩ ⟨5000000000, 2, 0⟩ (by decide) (by decide) (by decide),
    quota_sample_exact_in_range "linode" scenarioClient () () scenarioInstances rfl 1
      ⟨101, "web-2", "us-east"⟩ ⟨3000000000000, 4, 1000000000⟩ (by decide) (by decide)
      (by decide),
    by decide, by decide⟩

/-- C3, counterexample: the list holds the same instance at positions 0 and 1, the
transfer call at position 0 fails and the one at position 1 succeeds; the three
samples sent are those of position 1, and each of them carries the label values of
the instance at position 0. -/
theorem skipped_labels_carried_by_duplicate :
    duplicateClient.ListInstances 0 = (.ok duplicateInstances, 0) ∧
      transferResponses duplicateClient duplicateInstances 0 =
        [.error "timeout", .ok ⟨5, 1, 0⟩] ∧
      duplicateInstances[0]? = some ⟨5, "dup", "us-east"⟩ ∧
      (samples (Collect (NewTransferCollector "linode" duplicateClient) 0).events).length =
        3 * (2 - 1) ∧
      ∀ m ∈ samples (Collect (NewTransferCollector "linode" duplicateClient) 0).events,
        m.labelPairs.map Prod.snd = [Itoa 5, "dup", "us-east"] :=
  ⟨rfl, rfl, rfl, by decide, by decide⟩

/-- C3, amended: when `ListInstances` returns `N ≥ 1` instances and the
`GetInstanceTransfer` call at position `k` is the only one that fails, `Collect`
sends exactly `3 * (N - 1)` samples: the triples, in order, of the instances other
than the one at position `k`, each with the detail answered for it; and when no
other instance has the identifier of instance `k`, no sample carries the label
values of instance `k`. -/
theorem collect_skips_failed_instance {σ : Type} (namespaceName : String) (client : Client σ)
    (s s1 : σ) (instances : List Instance) (k : Nat) (err : Error)
    (hlist : client.ListInstances s = (.ok instances, s1))
    (hfail : (transferResponses client instances s1)[k]? = some (Except.error err))
    (hothers : ∀ i r, i ≠ k → (transferResponses client instances s1)[i]? = some r →
      ∃ t, r = Except.ok t) :
    (samples (Collect (NewTransferCollector namespaceName client) s).events).length =
        3 * (instances.length - 1) ∧
      samples (Collect (NewTransferCollector namespaceName client) s).events =
        (fetched client instances s1).flatMap
          (instanceSamples (NewTransferCollector namespaceName client)) ∧
      (fetched client instances s1).map Prod.fst = instances.eraseIdx k ∧
      (fetched client instances s1).map (fun p => Except.ok p.2) =
        (transferResponses client instances s1).eraseIdx k ∧
      ((∀ i a b, i ≠ k → instances[i]? = some a → instances[k]? = some b → a.ID ≠ b.ID) →
        ∀ m ∈ samples (Collect (NewTransferCollector namespaceName client) s).events,
          ∀ b, instances[k]? = some b →
            m.labelPairs.map Prod.snd ≠ [Itoa b.ID, b.Label, b.Region]) := by
  have hc := newTransferCollector_threeLabels namespaceName client
  have hsamples := (collect_listOk _ hc s s1 instances hlist).2.2.1
  obtain ⟨hfst, hsnd⟩ := fetched_of_one_error client instances s1 k err hfail hothers
  have hk : k < instances.length := by
    have := (List.getElem?_eq_some_iff.1 hfail).1
    rwa [length_transferResponses] at this
  refine ⟨?_, hsamples, hfst, hsnd, ?_⟩
  · rw [hsamples, length_flatMap_three _ (length_instanceSamples _)]
    show 3 * (fetched client instances s1).length = 3 * (instances.length - 1)
    rw [← List.length_eraseIdx_of_lt hk, ← hfst, List.length_map]
  · intro hdistinct m hm b hb hlabels
    rw [hsamples] at hm
    obtain ⟨p, hp, hmp⟩ := List.mem_flatMap.1 hm
    have hpairs := (labelPairs_of_mem_instanceSamples namespaceName client p m hmp).1
    have hmem : p.1 ∈ instances.eraseIdx k := by
      rw [← hfst]
      exact List.mem_map_of_mem Prod.fst hp
    obtain ⟨i, hik, hi⟩ := List.mem_eraseIdx_iff_getElem?.1 hmem
    apply hdistinct i p.1 b hik hi hb
    rw [hpairs] at hlabels
    simp only [List.map_cons, List.map_nil, List.cons.injEq] at hlabels
    exact Itoa_injective hlabels.1

/-- Witness of the amended C3: of three instances, the second transfer call fails. -/
theorem collect_skips_failed_instance_witness :
    (samples (Collect (NewTransferCollector "linode" flakyClient) 0).events).length =
      3 * (3 - 1) ∧
    (samples (Collect (NewTransferCollector "linode" flakyClient) 0).events).map
        (fun m => m.labelPairs.map Prod.snd) =
      [["7", "a", "eu-west"], ["7", "a", "eu-west"], ["7", "a", "eu-west"],
       ["9", "c", "eu-west"], ["9", "c", "eu-west"], ["9", "c", "eu-west"]] ∧
    (fetched flakyClient
        [⟨7, "a", "eu-west"⟩, ⟨8, "b", "eu-west"⟩, ⟨9, "c", "eu-west"⟩] 0).map Prod.fst =
      [⟨7, "a", "eu-west"⟩, ⟨9, "c", "eu-west"⟩] :=
  have h := collect_skips_failed_instance "linode" flakyClient 0 0
    [⟨7, "a", "eu-west"⟩, ⟨8, "b", "eu-west"⟩, ⟨9, "c", "eu-west"⟩] 1 "timeout" rfl rfl
    (by
      intro i r hik hi
      match i, hik, hi with
      | 0, _, hi => exact ⟨⟨7, 1, 0⟩, by simpa [transferResponses, flakyClient] using hi.symm⟩
      | 1, hik, _ => exact absurd rfl hik
      | 2, _, hi => exact ⟨⟨9, 1, 0⟩, by simpa [transferResponses, flakyClient] using hi.symm⟩
      | n + 3, _, hi => simp [transferResponses, flakyClient] at hi)
  ⟨h.1, by decide, h.2.2.1⟩

/-- C4: when `ListInstances` returns an error, `Collect` sends no sample, makes no
`GetInstanceTransfer` call (its only upstream call is the list call) and returns
without a panic. -/
theorem collect_list_failure {σ : Type} (namespaceName : String) (client : Client σ)
    (s s1 : σ) (err : Error) (hlist : client.ListInstances s = (.error err, s1)) :
    samples (Collect (NewTransferCollector namespaceName client) s).events = [] ∧
      (∀ id, Event.callGetInstanceTransfer id ∉
        (Collect (NewTransferCollector namespaceName client) s).events) ∧
      upstreamCalls (Collect (NewTransferCollector namespaceName client) s).events =
        [Event.callListInstances] ∧
      (Collect (NewTransferCollector namespaceName client) s).panicked = false := by
  rw [collect_listError (NewTransferCollector namespaceName client) s s1 err hlist]
  refine ⟨rfl, ?_, rfl, rfl⟩
  intro id hmem
  simp at hmem

/-- Witness of C4 on a client whose list call fails. -/
theorem collect_list_failure_witness :
    samples (Collect (NewTransferCollector "linode" listFailureClient) ()).events = [] ∧
      (∀ id, Event.callGetInstanceTransfer id ∉
        (Collect (NewTransferCollector "linode" listFailureClient) ()).events) ∧
      upstreamCalls (Collect (NewTransferCollector "linode" listFailureClient) ()).events =
        [Event.callListInstances] ∧
      (Collect (NewTransferCollector "linode" listFailureClient) ()).panicked = false :=
  collect_list_failure "linode" listFailureClient () () "list failed" rfl

/-- C5: for the `i`-th fetched instance, with detail `t`, the first sample of its
triple is the used sample with value `float64(t.Used)` and the third is the billable
sample with value `float64(t.Billable)`: nothing but the conversion is applied, and
the conversion itself changes no value below `2 ^ 53` in absolute value. -/
theorem used_and_billable_pass_through {σ : Type} (namespaceName : String)
    (client : Client σ) (s s1 : σ) (instances : List Instance)
    (hlist : client.ListInstances s = (.ok instances, s1))
    (i : Nat) (inst : Instance) (t : InstanceTransfer)
    (hfetched : (fetched client instances s1)[i]? = some (inst, t)) :
    (samples (Collect (NewTransferCollector namespaceName client) s).events)[3 * i]? =
      some { desc := (NewTransferCollector namespaceName client).UsedBytes,
             valType := .GaugeValue,
             val := float64OfInt t.Used,
             labelPairs := [("linode_id", Itoa inst.ID), ("label", inst.Label),
               ("region", inst.Region)] } ∧
    (samples (Collect (NewTransferCollector namespaceName client) s).events)[3 * i + 2]? =
      some { desc := (NewTransferCollector namespaceName client).BillableBytes,
             valType := .GaugeValue,
             val := float64OfInt t.Billable,
             labelPairs := [("linode_id", Itoa inst.ID), ("label", inst.Label),
               ("region", inst.Region)] } ∧
    (t.Used.natAbs < 2 ^ 53 → float64OfInt t.Used = t.Used) ∧
    (t.Billable.natAbs < 2 ^ 53 → float64OfInt t.Billable = t.Billable) := by
  refine ⟨?_, ?_, float64OfInt_small t.Used, float64OfInt_small t.Billable⟩
  · exact sample_at_fetched namespaceName client s s1 instances hlist i (inst, t) hfetched 0
      (by decide)
  · exact sample_at_fetched namespaceName client s s1 instances hlist i (inst, t) hfetched 2
      (by decide)

/-- Witness of C5: the second instance of the scenario, used 3e12 and billable 1e9. -/
theorem used_and_billable_pass_through_witness :
    (samples (Collect (NewTransferCollector "linode" scenarioClient) ()).events)[3 * 1]? =
      some { desc := (NewTransferCollector "linode" scenarioClient).UsedBytes,
             valType := .GaugeValue,
             val := 3000000000000,
             labelPairs := [("linode_id", "101"), ("label", "web-2"),
               ("region", "us-east")] } ∧
    (samples (Collect (NewTransferCollector "linode" scenarioClient) ()).events)[3 * 1 + 2]? =
      some { desc := (NewTransferCollector "linode" scenarioClient).BillableBytes,
             valType := .GaugeValue,
             val := 1000000000,
             labelPairs := [("linode_id", "101"), ("label", "web-2"),
               ("region", "us-east")] } :=
  have h := used_and_billable_pass_through "linode" scenarioClient () () scenarioInstances rfl
    1 ⟨101, "web-2", "us-east"⟩ ⟨3000000000000, 4, 1000000000⟩ (by decide)
  ⟨h.1, h.2.1⟩

/-- C6: after any sequence of `Collect` and `Describe` calls on a collector built by
`NewTransferCollector`, against any client, `Describe` sends exactly three
descriptors, the used, quota and billable ones of the construction in that order,
makes no upstream call, and leaves the collector and the upstream state as they
were. -/
theorem describe_static {σ : Type} (namespaceName : String) (client : Client σ) (s : σ)
    (history : List Call) :
    descriptors (Describe (runCalls history (NewTransferCollector namespaceName client) s).1
        (runCalls history (NewTransferCollector namespaceName client) s).2).events =
      [(NewTransferCollector namespaceName client).UsedBytes,
       (NewTransferCollector namespaceName client).QuotaBytes,
       (NewTransferCollector namespaceName client).BillableBytes] ∧
    (descriptors (Describe (runCalls history (NewTransferCollector namespaceName client) s).1
        (runCalls history (NewTransferCollector namespaceName client) s).2).events).map
        (fun d => d.fqName) =
      [BuildFQName namespaceName "transfer" "used_bytes",
       BuildFQName namespaceName "transfer" "quota_bytes",
       BuildFQName namespaceName "transfer" "billable_bytes"] ∧
    (descriptors (Describe (runCalls history (NewTransferCollector namespaceName client) s).1
        (runCalls history (NewTransferCollector namespaceName client) s).2).events).length = 3 ∧
    upstreamCalls (Describe (runCalls history (NewTransferCollector namespaceName client) s).1
        (runCalls history (NewTransferCollector namespaceName client) s).2).events = [] ∧
    (Describe (runCalls history (NewTransferCollector namespaceName client) s).1
        (runCalls history (NewTransferCollector namespaceName client) s).2).receiver =
      (runCalls history (NewTransferCollector namespaceName client) s).1 ∧
    (Describe (runCalls history (NewTransferCollector namespaceName client) s).1
        (runCalls history (NewTransferCollector namespaceName client) s).2).upstream =
      (runCalls history (NewTransferCollector namespaceName client) s).2 ∧
    (Describe (runCalls history (NewTransferCollector namespaceName client) s).1
        (runCalls history (NewTransferCollector namespaceName client) s).2).panicked = false := by
  rw [runCalls_collector _ (newTransferCollector_threeLabels namespaceName client) history s]
  exact ⟨rfl, rfl, rfl, rfl, rfl, rfl, rfl⟩

/-- C7, counterexample: the label names of the three descriptors are not
`["resource_id", "label", "region"]`. -/
theorem label_names_not_resource_id :
    (NewTransferCollector "linode" scenarioClient).UsedBytes.variableLabels ≠
        ["resource_id", "label", "region"] ∧
      (NewTransferCollector "linode" scenarioClient).QuotaBytes.variableLabels ≠
        ["resource_id", "label", "region"] ∧
      (NewTransferCollector "linode" scenarioClient).BillableBytes.variableLabels ≠
        ["resource_id", "label", "region"] := by
  decide

/-- C7, amended: each of the three descriptors built by `NewTransferCollector`
(`used_bytes`, `quota_bytes`, `billable_bytes` in subsystem `transfer`) has the
ordered label-name list `["linode_id", "label", "region"]`. -/
theorem label_names_linode_id {σ : Type} (namespaceName : String) (client : Client σ) :
    (NewTransferCollector namespaceName client).UsedBytes =
        NewDesc (BuildFQName namespaceName "transfer" "used_bytes")
          "Total transfer used in current billing period" ["linode_id", "label", "region"] [] ∧
      (NewTransferCollector namespaceName client).QuotaBytes =
        NewDesc (BuildFQName namespaceName "transfer" "quota_bytes")
          "Monthly transfer quota" ["linode_id", "label", "region"] [] ∧
      (NewTransferCollector namespaceName client).BillableBytes =
        NewDesc (BuildFQName namespaceName "transfer" "billable_bytes")
          "Transfer that exceeds quota (billable)" ["linode_id", "label", "region"] [] ∧
      (NewTransferCollector namespaceName client).UsedBytes.variableLabels =
        ["linode_id", "label", "region"] ∧
      (NewTransferCollector namespaceName client).QuotaBytes.variableLabels =
        ["linode_id", "label", "region"] ∧
      (NewTransferCollector namespaceName client).BillableBytes.variableLabels =
        ["linode_id", "label", "region"] :=
  ⟨rfl, rfl, rfl, rfl, rfl, rfl⟩

/-- C8: whatever the upstream answers, `Collect` never panics: for each of the three
descriptors and any instance the arity check of `NewConstMetric` succeeds on the
slice built by the loop body and pairs `linode_id` with the identifier, `label`
with the label and `region` with the region. Every sample sent, at position `n`,
has the descriptor number `n % 3` of used, quota, billable, as many label values
as that descriptor has label names, and its pairs are, name by name in the order
of the descriptor, the identifier, the label and the region of the listed instance
that is the fetched instance number `n / 3`. -/
theorem collect_label_arity {σ : Type} (namespaceName : String) (client : Client σ) (s : σ) :
    (Collect (NewTransferCollector namespaceName client) s).panicked = false ∧
      (∀ (inst : Instance) (v : Int),
        NewConstMetric (NewTransferCollector namespaceName client).UsedBytes
            .GaugeValue v (labelValues inst) =
          .ok { desc := (NewTransferCollector namespaceName client).UsedBytes,
                valType := .GaugeValue, val := v,
                labelPairs := [("linode_id", Itoa inst.ID), ("label", inst.Label),
                  ("region", inst.Region)] } ∧
        NewConstMetric (NewTransferCollector namespaceName client).QuotaBytes
            .GaugeValue v (labelValues inst) =
          .ok { desc := (NewTransferCollector namespaceName client).QuotaBytes,
                valType := .GaugeValue, val := v,
                labelPairs := [("linode_id", Itoa inst.ID), ("label", inst.Label),
                  ("region", inst.Region)] } ∧
        NewConstMetric (NewTransferCollector namespaceName client).BillableBytes
            .GaugeValue v (labelValues inst) =
          .ok { desc := (NewTransferCollector namespaceName client).BillableBytes,
                valType := .GaugeValue, val := v,
                labelPairs := [("linode_id", Itoa inst.ID), ("label", inst.Label),
                  ("region", inst.Region)] }) ∧
      ∀ (n : Nat) (m : Metric),
        (samples (Collect (NewTransferCollector namespaceName client) s).events)[n]? = some m →
        m.labelPairs.length = m.desc.variableLabels.length ∧
        m.labelPairs.map Prod.fst = m.desc.variableLabels ∧
        [(NewTransferCollector namespaceName client).UsedBytes,
          (NewTransferCollector namespaceName client).QuotaBytes,
          (NewTransferCollector namespaceName client).BillableBytes][n % 3]? = some m.desc ∧
        ∃ (instances : List Instance) (s1 : σ) (inst : Instance) (t : InstanceTransfer),
          client.ListInstances s = (.ok instances, s1) ∧
          (fetched client instances s1)[n / 3]? = some (inst, t) ∧
          (inst, Except.ok t) ∈ instances.zip (transferResponses client instances s1) ∧
          inst ∈ instances ∧
          m.labelPairs = [("linode_id", Itoa inst.ID), ("label", inst.Label),
            ("region", inst.Region)] ∧
          m.labelPairs.map Prod.snd = [Itoa inst.ID, inst.Label, inst.Region] ∧
          m.labelPairs = m.desc.variableLabels.zip [Itoa inst.ID, inst.Label, inst.Region] := by
  have hc := newTransferCollector_threeLabels namespaceName client
  refine ⟨collect_panicked _ hc s, ?_, ?_⟩
  · intro inst v
    exact ⟨rfl, rfl, rfl⟩
  · intro n m hn
    rcases h : client.ListInstances s with ⟨r, s1⟩
    cases r with
    | error err =>
      rw [collect_listError (NewTransferCollector namespaceName client) s s1 err h] at hn
      simp [samples] at hn
    | ok instances =>
      have hj : n % 3 < 3 := Nat.mod_lt n (by decide)
      have hat : (samples (Collect (NewTransferCollector namespaceName client) s).events)[
          3 * (n / 3) + n % 3]? =
          ((fetched client instances s1)[n / 3]?).bind fun p =>
            (instanceSamples (NewTransferCollector namespaceName client) p)[n % 3]? :=
        sample_at _ hc s s1 instances h (n / 3) (n % 3) hj
      rw [Nat.div_add_mod n 3, hn] at hat
      cases hp : (fetched client instances s1)[n / 3]? with
      | none =>
        rw [hp] at hat
        cases hat
      | some p =>
        rw [hp] at hat
        obtain ⟨inst, t⟩ := p
        have hmemf : (inst, t) ∈ fetched client instances s1 := List.getElem?_mem hp
        have hzip : (inst, Except.ok t) ∈
            instances.zip (transferResponses client instances s1) := by
          obtain ⟨a, ha, hfa⟩ := List.mem_filterMap.1 hmemf
          obtain ⟨ai, ar⟩ := a
          cases ar with
          | error e => cases hfa
          | ok t0 =>
            simp only [fetchedPair, Option.some.injEq, Prod.mk.injEq] at hfa
            obtain ⟨rfl, rfl⟩ := hfa
            exact ha
        have hinst : inst ∈ instances := (List.of_mem_zip hzip).1
        have hm : (instanceSamples (NewTransferCollector namespaceName client) (inst, t))[
            n % 3]? = some m := by
          simpa using hat.symm
        generalize n % 3 = j at hj hm
        interval_cases j
        · obtain rfl : usedSample (NewTransferCollector namespaceName client) inst t = m := by
            simpa [instanceSamples] using hm
          exact ⟨rfl, rfl, rfl, instances, s1, inst, t, rfl, hp, hzip, hinst, rfl, rfl, rfl⟩
        · obtain rfl : quotaSample (NewTransferCollector namespaceName client) inst t = m := by
            simpa [instanceSamples] using hm
          exact ⟨rfl, rfl, rfl, instances, s1, inst, t, rfl, hp, hzip, hinst, rfl, rfl, rfl⟩
        · obtain rfl : billableSample (NewTransferCollector namespaceName client) inst t = m := by
            simpa [instanceSamples] using hm
          exact ⟨rfl, rfl, rfl, instances, s1, inst, t, rfl, hp, hzip, hinst, rfl, rfl, rfl⟩

/-- Witness of C8 on the scenario: no panic, and every sample's pairs are the
identifier, label and region of one of the two listed instances. -/
theorem collect_label_arity_witness :
    (Collect (NewTransferCollector "linode" scenarioClient) ()).panicked = false ∧
      ∀ (n : Nat) (m : Metric),
        (samples (Collect (NewTransferCollector "linode" scenarioClient) ()).events)[n]? =
          some m →
        ∃ inst ∈ scenarioInstances,
          m.labelPairs = [("linode_id", Itoa inst.ID), ("label", inst.Label),
            ("region", inst.Region)] :=
  have h := collect_label_arity "linode" scenarioClient ()
  ⟨h.1, fun n m hn => by
    obtain ⟨_, _, _, instances, s1, inst, t, hl, _, _, hmem, hpairs, _⟩ := h.2.2 n m hn
    have hi : instances = scenarioInstances := by
      simp only [scenarioClient, Prod.mk.injEq, Except.ok.injEq] at hl
      exact hl.1.symm
    exact ⟨inst, hi ▸ hmem, hpairs⟩⟩

/-- C9: when `ListInstances` succeeds, the samples sent by `Collect` are the
concatenation, over the instances in the order returned and the answers of their
transfer calls, of the triple used, quota, billable for an instance whose call
succeeded and of nothing for one whose call failed. -/
theorem collect_samples_in_order {σ : Type} (namespaceName : String) (client : Client σ)
    (s s1 : σ) (instances : List Instance)
    (hlist : client.ListInstances s = (.ok instances, s1)) :
    samples (Collect (NewTransferCollector namespaceName client) s).events =
      (instances.zip (transferResponses client instances s1)).flatMap fun p =>
        match p.2 with
        | .ok t =>
          [usedSample (NewTransferCollector namespaceName client) p.1 t,
           quotaSample (NewTransferCollector namespaceName client) p.1 t,
           billableSample (NewTransferCollector namespaceName client) p.1 t]
        | .error _ => [] := by
  rw [(collect_listOk _ (newTransferCollector_threeLabels namespaceName client) s s1
    instances hlist).2.2.1]
  show ((instances.zip (transferResponses client instances s1)).filterMap fetchedPair).flatMap
    _ = _
  rw [flatMap_filterMap]
  congr 1
  funext p
  rcases p with ⟨inst, r⟩
  cases r <;> rfl

/-- Witness of C9: three instances, the second transfer call fails. -/
theorem collect_samples_in_order_witness :
    (samples (Collect (NewTransferCollector "linode" flakyClient) 0).events).map
        (fun m => (m.desc.fqName, m.val, m.labelPairs.map Prod.snd)) =
      [("linode_transfer_used_bytes", 7, ["7", "a", "eu-west"]),
       ("linode_transfer_quota_bytes", 1073741824, ["7", "a", "eu-west"]),
       ("linode_transfer_billable_bytes", 0, ["7", "a", "eu-west"]),
       ("linode_transfer_used_bytes", 9, ["9", "c", "eu-west"]),
       ("linode_transfer_quota_bytes", 1073741824, ["9", "c", "eu-west"]),
       ("linode_transfer_billable_bytes", 0, ["9", "c", "eu-west"])] := by
  rw [collect_samples_in_order "linode" flakyClient 0 0
    [⟨7, "a", "eu-west"⟩, ⟨8, "b", "eu-west"⟩, ⟨9, "c", "eu-west"⟩] rfl]
  decide

/-- C10: the collectors that `main` registers are the account, exporter, instance,
node-balancer and ticket collectors; the one built by `NewTransferCollector` is not
among them. -/
theorem transfer_collector_not_registered :
    mainRegistered =
        [.NewAccountCollector, .NewExporterCollector, .NewInstanceCollector,
          .NewNodeBalancerCollector, .NewTicketCollector] ∧
      Constructor.NewTransferCollector ∉ mainRegistered := by
  decide

end LinodeExporter
